import Mathlib

/-!
Shallow embedding of the multihash codec (src/index.js): a registry of
hash-function names and codes, `coerceCode`, `encode` (MultihashEncode),
`validate` (validateMultihash) and `decode` (MultihashDecode).

Modelling conventions:
* A JS `Buffer` is a `List Nat` of byte values; `new Buffer([a, b])`
  coerces each entry to a uint8, modelled by `% 256`.
* JS `throw new Error(...)` / returned `Error` values are the discriminated
  failure kinds of the spec's taxonomy (`MHError`); each constructor stands
  for the one `Error` message the source produces at that point.
* JS truthiness on the results of `Map.get` (`undefined`, `0`, `""` are
  falsy) is modelled explicitly by `isTruthyNat` / `isTruthyStr`.
* A `validate`/`decode` argument may be a non-Buffer value
  (`BufferArg.notBuf`), matching the `Buffer.isBuffer` guard.
-/

namespace Multihash

/-- The failure taxonomy of the spec (§7); one constructor per distinct
`Error` the source can produce. -/
inductive MHError where
  | MissingArguments
  | InvalidCodeType
  | UnknownHashName
  | UnrecognizedCode
  | InvalidDigestType
  | LengthMismatch
  | LengthTooLarge
  | NotAByteSequence
  | TooShort
  | TooLong
  | UnknownFunctionCode
  | LengthInconsistent
  deriving DecidableEq, Repr

/-- `mh.names`: the name → code table, in source order. -/
def names : List (String × Nat) :=
  [("sha1", 0x11),
   ("sha2-256", 0x12),
   ("sha2-512", 0x13),
   ("sha3", 0x14),
   ("blake2b", 0x40),
   ("blake2s", 0x41)]

/-- `invert`: build the reverse map.  The source iterates the keys and sets
`reverse[map.get(key)] = key`; since `mh.names` has pairwise distinct values
no key is ever overwritten, so reversing each pair is faithful. -/
def invert (m : List (String × Nat)) : List (Nat × String) :=
  m.map (fun kv => (kv.2, kv.1))

/-- `mh.codes = invert(mh.names)`: the code → name table. -/
def codes : List (Nat × String) := invert names

/-- `mh.defaultLengths` (advisory only; consulted by no codec operation). -/
def defaultLengths : List (Nat × Nat) :=
  [(0x11, 20), (0x12, 32), (0x13, 64), (0x14, 64), (0x40, 64), (0x41, 3)]

/-- `mh.isAppCode(code)`: `code > 0 && code < 0x10`. -/
def isAppCode (code : Nat) : Bool :=
  decide (code > 0) && decide (code < 0x10)

/-- JS truthiness of a `Map.get` result holding a number
(`undefined` and `0` are falsy). -/
def isTruthyNat : Option Nat → Bool
  | none => false
  | some n => !(n == 0)

/-- JS truthiness of a `Map.get` result holding a string
(`undefined` and `""` are falsy). -/
def isTruthyStr : Option String → Bool
  | none => false
  | some s => !(s == "")

/-- A `hashfn` designator: a hash-function name (string) or a numeric code.
(The source's `typeof` check for other value types is outside this sum.) -/
inductive HashFn where
  | name (s : String)
  | code (n : Nat)
  deriving DecidableEq, Repr

/-- JS truthiness of a `hashfn` argument: `""` and `0` are falsy. -/
def hashfnTruthy : HashFn → Bool
  | .name s => !(s == "")
  | .code n => !(n == 0)

/-- `mh.coerceCode(hashfn)`.  On a string it requires a (truthy) entry in
`mh.names`; then the shared check accepts the number iff it is in `mh.codes`
or an application code.  The `typeof code !== 'number'` branch
(`InvalidCodeType`) cannot fire here: both branches yield a number. -/
def coerceCode (hashfn : HashFn) : Except MHError Nat :=
  match hashfn with
  | .name s =>
    if !(isTruthyNat (names.lookup s)) then .error .UnknownHashName
    else
      let code := (names.lookup s).getD 0
      if !(isTruthyStr (codes.lookup code)) && !(isAppCode code) then
        .error .UnrecognizedCode
      else .ok code
  | .code n =>
    if !(isTruthyStr (codes.lookup n)) && !(isAppCode n) then
      .error .UnrecognizedCode
    else .ok n

/-- The reassignment `if (!length) { length = digest.length }` in
MultihashEncode: an absent and a zero (falsy) `length` both fall back to the
digest's length. -/
def effLength (digest : List Nat) : Option Nat → Nat
  | none => digest.length
  | some l => if l = 0 then digest.length else l

/-- `mh.encode(digest, hashfn, length)` (MultihashEncode).  `digest` is a
Buffer, so `!digest` and the `Buffer.isBuffer` guard never fire (Buffers are
truthy objects); `length` is the optional third argument. -/
def encode (digest : List Nat) (hashfn : HashFn) (length : Option Nat) :
    Except MHError (List Nat) :=
  if !(hashfnTruthy hashfn) then .error .MissingArguments
  else
    match coerceCode hashfn with
    | .error e => .error e
    | .ok code =>
      let len : Nat := effLength digest length
      if len ≠ 0 ∧ digest.length ≠ len then .error .LengthMismatch
      else if len > 127 then .error .LengthTooLarge
      else .ok ((code % 256) :: (len % 256) :: digest)

/-- A `validate`/`decode` argument: a Buffer, or any non-Buffer value
(which `Buffer.isBuffer` rejects). -/
inductive BufferArg where
  | buf (bytes : List Nat)
  | notBuf
  deriving DecidableEq, Repr

/-- `mh.validate(multihash)` (validateMultihash): returns the first failing
check's error, or nothing.  `multihash[0]`/`multihash[1]` are only reached
once the length is at least 3, and `multihash.slice(2)` is `List.drop 2`. -/
def validate (multihash : BufferArg) : Option MHError :=
  match multihash with
  | .notBuf => some .NotAByteSequence
  | .buf m =>
    if m.length < 3 then some .TooShort
    else if m.length > 129 then some .TooLong
    else if !(isAppCode (m.getD 0 0)) && !(isTruthyStr (codes.lookup (m.getD 0 0))) then
      some .UnknownFunctionCode
    else if (m.drop 2).length ≠ m.getD 1 0 then some .LengthInconsistent
    else none

/-- The decoded record.  `name` is `none` exactly where the JS object holds
`undefined` (an unregistered application code). -/
structure Decoded where
  code : Nat
  name : Option String
  length : Nat
  digest : List Nat
  deriving DecidableEq, Repr

/-- `mh.decode(multihash)` (MultihashDecode): runs `validate` and throws its
error unchanged, else builds the record from bytes 0, 1 and the rest.  The
`.notBuf` inner branch is unreachable (`validate` already rejected it). -/
def decode (multihash : BufferArg) : Except MHError Decoded :=
  match validate multihash with
  | some err => .error err
  | none =>
    match multihash with
    | .notBuf => .error .NotAByteSequence
    | .buf m =>
      .ok { code := m.getD 0 0
            name := codes.lookup (m.getD 0 0)
            length := m.getD 1 0
            digest := m.drop 2 }

/-- A code is accepted by the codec iff it is an application code or has a
(truthy) entry in `mh.codes`; this is the negation of `validate`'s
unknown-function-code test and of `coerceCode`'s final test. -/
def validCode (c : Nat) : Bool :=
  isAppCode c || isTruthyStr (codes.lookup c)

/-! ## Helper lemmas -/

theorem mem_of_lookup_eq_some {α β : Type} [BEq α] [LawfulBEq α]
    {l : List (α × β)} {a : α} {b : β} (h : l.lookup a = some b) :
    (a, b) ∈ l := by
  induction l with
  | nil => simp [List.lookup] at h
  | cons p t ih =>
    obtain ⟨k, v⟩ := p
    rw [List.lookup] at h
    by_cases hk : (a == k) = true
    · simp only [hk] at h
      obtain rfl := eq_of_beq hk
      cases h
      exact List.mem_cons_self _ _
    · simp only [Bool.not_eq_true] at hk
      simp only [hk] at h
      exact List.mem_cons_of_mem _ (ih h)

theorem names_codes_inverse (s : String) (c : Nat) :
    names.lookup s = some c ↔ codes.lookup c = some s := by
  constructor
  · intro h
    have hm := mem_of_lookup_eq_some h
    simp only [names, List.mem_cons, List.not_mem_nil, or_false, Prod.mk.injEq] at hm
    rcases hm with ⟨rfl, rfl⟩ | ⟨rfl, rfl⟩ | ⟨rfl, rfl⟩ | ⟨rfl, rfl⟩ | ⟨rfl, rfl⟩ | ⟨rfl, rfl⟩ <;> rfl
  · intro h
    have hm := mem_of_lookup_eq_some h
    simp only [codes, invert, names, List.map, List.mem_cons, List.not_mem_nil, or_false,
      Prod.mk.injEq] at hm
    rcases hm with ⟨rfl, rfl⟩ | ⟨rfl, rfl⟩ | ⟨rfl, rfl⟩ | ⟨rfl, rfl⟩ | ⟨rfl, rfl⟩ | ⟨rfl, rfl⟩ <;> rfl

theorem validCode_iff (c : Nat) :
    validCode c = true ↔
      (0 < c ∧ c < 16) ∨ c = 0x11 ∨ c = 0x12 ∨ c = 0x13 ∨ c = 0x14 ∨ c = 0x40 ∨ c = 0x41 := by
  constructor
  · intro h
    simp only [validCode, Bool.or_eq_true, isAppCode, Bool.and_eq_true, decide_eq_true_eq] at h
    rcases h with ⟨h1, h2⟩ | h
    · exact Or.inl ⟨h1, h2⟩
    · cases heq : codes.lookup c with
      | none => rw [heq] at h; simp [isTruthyStr] at h
      | some s =>
        have hm := mem_of_lookup_eq_some heq
        simp only [codes, invert, names, List.map, List.mem_cons, List.not_mem_nil, or_false,
          Prod.mk.injEq] at hm
        rcases hm with ⟨rfl, rfl⟩ | ⟨rfl, rfl⟩ | ⟨rfl, rfl⟩ | ⟨rfl, rfl⟩ | ⟨rfl, rfl⟩ | ⟨rfl, rfl⟩ <;>
          simp
  · intro h
    rcases h with ⟨h1, h2⟩ | rfl | rfl | rfl | rfl | rfl | rfl
    · simp only [validCode, Bool.or_eq_true, isAppCode, Bool.and_eq_true, decide_eq_true_eq]
      exact Or.inl ⟨h1, h2⟩
    all_goals rfl

theorem validCode_lt_256 {c : Nat} (h : validCode c = true) : c < 256 := by
  rcases (validCode_iff c).mp h with ⟨_, h2⟩ | rfl | rfl | rfl | rfl | rfl | rfl <;> omega

theorem validate_branch_cond (c : Nat) :
    (!(isAppCode c) && !(isTruthyStr (codes.lookup c))) = !(validCode c) := by
  simp [validCode]

theorem validate_buf_eq (b : List Nat) :
    validate (.buf b) =
      if b.length < 3 then some .TooShort
      else if b.length > 129 then some .TooLong
      else if validCode (b.getD 0 0) = false then some .UnknownFunctionCode
      else if (b.drop 2).length ≠ b.getD 1 0 then some .LengthInconsistent
      else none := by
  simp only [validate, validate_branch_cond, Bool.not_eq_true']

theorem validate_buf_none_iff (b : List Nat) :
    validate (.buf b) = none ↔
      3 ≤ b.length ∧ b.length ≤ 129 ∧ validCode (b.getD 0 0) = true ∧
      (b.drop 2).length = b.getD 1 0 := by
  rw [validate_buf_eq]
  split_ifs with h1 h2 h3 h4 <;> simp_all

theorem coerceCode_code_eq (n : Nat) :
    coerceCode (.code n) = if validCode n then .ok n else .error .UnrecognizedCode := by
  simp only [coerceCode, validCode]
  by_cases h1 : isAppCode n = true
  · simp [h1]
  · by_cases h2 : isTruthyStr (codes.lookup n) = true
    · simp [h1, h2]
    · simp only [Bool.not_eq_true] at h1 h2
      simp [h1, h2]

theorem coerceCode_ok_truthy {hashfn : HashFn} {c : Nat} (h : coerceCode hashfn = .ok c) :
    hashfnTruthy hashfn = true := by
  cases hashfn with
  | name s =>
    by_cases hs : s = ""
    · subst hs
      rw [show coerceCode (.name "") = .error .UnknownHashName from rfl] at h
      exact Except.noConfusion h
    · simp [hashfnTruthy, hs]
  | code n =>
    by_cases hn : n = 0
    · subst hn
      rw [show coerceCode (.code 0) = .error .UnrecognizedCode from rfl] at h
      exact Except.noConfusion h
    · simp [hashfnTruthy, hn]

theorem encode_ok_form (digest : List Nat) (hashfn : HashFn) (c : Nat)
    (hc : coerceCode hashfn = .ok c) (hlen : digest.length ≤ 127) :
    encode digest hashfn none = .ok ((c % 256) :: (digest.length % 256) :: digest) := by
  have ht := coerceCode_ok_truthy hc
  simp only [encode, ht, Bool.not_true, Bool.false_eq_true, if_false, hc, effLength]
  rw [if_neg (by simp), if_neg (by omega)]

/-! ## Claim theorems -/

/-- Claim C2: the registry's two lookups are mutually inverse (bijective on their
entries), and contain the six reference entries sha1 = 0x11, sha2-256 = 0x12,
sha2-512 = 0x13, sha3 = 0x14, blake2b = 0x40, blake2s = 0x41: each name maps
to its code in `mh.names` and that code maps back to the name in `mh.codes`. -/
theorem registry_bijective_six_entries :
    (∀ (s : String) (c : Nat), names.lookup s = some c ↔ codes.lookup c = some s) ∧
    (names.lookup "sha1" = some 0x11 ∧ codes.lookup 0x11 = some "sha1") ∧
    (names.lookup "sha2-256" = some 0x12 ∧ codes.lookup 0x12 = some "sha2-256") ∧
    (names.lookup "sha2-512" = some 0x13 ∧ codes.lookup 0x13 = some "sha2-512") ∧
    (names.lookup "sha3" = some 0x14 ∧ codes.lookup 0x14 = some "sha3") ∧
    (names.lookup "blake2b" = some 0x40 ∧ codes.lookup 0x40 = some "blake2b") ∧
    (names.lookup "blake2s" = some 0x41 ∧ codes.lookup 0x41 = some "blake2s") :=
  ⟨names_codes_inverse, ⟨rfl, rfl⟩, ⟨rfl, rfl⟩, ⟨rfl, rfl⟩, ⟨rfl, rfl⟩, ⟨rfl, rfl⟩, ⟨rfl, rfl⟩⟩

/-- Claim C3: `coerceCode` resolves designators per the registry:
`coerceCode "sha2-256" = 0x12`, `coerceCode 0x12 = 0x12`,
`coerceCode "not-a-hash"` fails with `UnknownHashName`, and
`coerceCode 0x99` fails with `UnrecognizedCode`. -/
theorem coerceCode_resolves :
    coerceCode (.name "sha2-256") = .ok 0x12 ∧
    coerceCode (.code 0x12) = .ok 0x12 ∧
    coerceCode (.name "not-a-hash") = .error .UnknownHashName ∧
    coerceCode (.code 0x99) = .error .UnrecognizedCode :=
  ⟨rfl, rfl, rfl, rfl⟩

/-- Claim C4: `validate` is a total function (it never throws) that returns
either no failure or exactly one of the five failure reasons
`NotAByteSequence`, `TooShort` (length < 3), `TooLong` (length > 129),
`UnknownFunctionCode`, `LengthInconsistent`, checked in that order with the
first matching failure winning: each result is characterised exactly by its
own check firing while every earlier check passes. -/
theorem validate_total_first_match (m : BufferArg) :
    (validate m = none ∨
      validate m ∈ [some MHError.NotAByteSequence, some .TooShort, some .TooLong,
        some .UnknownFunctionCode, some .LengthInconsistent]) ∧
    (validate m = some .NotAByteSequence ↔ m = .notBuf) ∧
    (validate m = some .TooShort ↔ ∃ b, m = .buf b ∧ b.length < 3) ∧
    (validate m = some .TooLong ↔ ∃ b, m = .buf b ∧ ¬ b.length < 3 ∧ b.length > 129) ∧
    (validate m = some .UnknownFunctionCode ↔
      ∃ b, m = .buf b ∧ ¬ b.length < 3 ∧ ¬ b.length > 129 ∧ validCode (b.getD 0 0) = false) ∧
    (validate m = some .LengthInconsistent ↔
      ∃ b, m = .buf b ∧ ¬ b.length < 3 ∧ ¬ b.length > 129 ∧ validCode (b.getD 0 0) = true ∧
        (b.drop 2).length ≠ b.getD 1 0) := by
  cases m with
  | notBuf => simp [validate]
  | buf b =>
    rw [validate_buf_eq]
    split_ifs with h1 h2 h3 h4 <;> simp_all

/-- Claim C9: every byte sequence on which `validate` reports no failure has
total length equal to 2 plus its length byte (byte 1), that total length lies
in [3, 129], and hence the length byte lies in [1, 127]. -/
theorem validate_passing_envelope_invariant (b : List Nat)
    (h : validate (.buf b) = none) :
    b.length = 2 + b.getD 1 0 ∧ 3 ≤ b.length ∧ b.length ≤ 129 ∧
    1 ≤ b.getD 1 0 ∧ b.getD 1 0 ≤ 127 := by
  obtain ⟨h1, h2, h3, h4⟩ := (validate_buf_none_iff b).mp h
  rw [List.length_drop] at h4
  omega

/-- Witness for C9: the invariant at the concrete passing envelope
[0x11, 1, 0xaa]. -/
theorem validate_passing_envelope_invariant_witness :
    ([0x11, 1, 0xaa] : List Nat).length = 2 + ([0x11, 1, 0xaa] : List Nat).getD 1 0 ∧
    3 ≤ ([0x11, 1, 0xaa] : List Nat).length ∧ ([0x11, 1, 0xaa] : List Nat).length ≤ 129 ∧
    1 ≤ ([0x11, 1, 0xaa] : List Nat).getD 1 0 ∧ ([0x11, 1, 0xaa] : List Nat).getD 1 0 ≤ 127 :=
  validate_passing_envelope_invariant [0x11, 1, 0xaa] rfl

/-- Claim C6: `decode` fails exactly when `validate` fails, propagating that
same failure unwrapped; when `validate` reports no failure, `decode` returns
the record with code = byte 0, name = the registry code-to-name lookup of
byte 0 (`none` for an unregistered application code), length = byte 1 and
digest = the remaining bytes, which are exactly `length` bytes. -/
theorem decode_matches_validate (m : BufferArg) :
    (∀ e, validate m = some e → decode m = .error e) ∧
    (validate m = none →
      ∃ b, m = .buf b ∧
        decode m = .ok { code := b.getD 0 0, name := codes.lookup (b.getD 0 0),
                         length := b.getD 1 0, digest := b.drop 2 } ∧
        (b.drop 2).length = b.getD 1 0) := by
  constructor
  · intro e he
    simp [decode, he]
  · intro h
    cases m with
    | notBuf => simp [validate] at h
    | buf b =>
      refine ⟨b, rfl, ?_, ?_⟩
      · simp [decode, h]
      · exact ((validate_buf_none_iff b).mp h).2.2.2

/-- Counterexample to C5 as stated: `validate` on the 2-byte sequence [5, 0]
does NOT report "no failure" — it reports `TooShort`, because the total
length 2 is below the `< 3` threshold. -/
theorem validate_zero_length_claim_false :
    validate (.buf [5, 0]) ≠ none ∧ validate (.buf [5, 0]) = some .TooShort :=
  ⟨by decide, rfl⟩

/-- Claim C5 as amended: a zero-length-digest envelope with an application
code is REJECTED by validation — `validate` on [5, 0] reports `TooShort`
(total length 2 < 3) and `decode` on it fails with that same `TooShort`
failure; it never produces a record. -/
theorem validate_zero_length_envelope_rejected :
    validate (.buf [5, 0]) = some .TooShort ∧ decode (.buf [5, 0]) = .error .TooShort :=
  ⟨rfl, rfl⟩

/-- Counterexample to C1 as stated: for the empty digest (0 bytes, within
"at most 127 bytes") and the registered code 0x11, `encode` succeeds with the
2-byte envelope [0x11, 0] but `decode` on it fails with `TooShort` instead of
returning the claimed record. -/
theorem roundtrip_fails_empty_digest :
    encode [] (.code 0x11) none = .ok [0x11, 0] ∧
    decode (.buf [0x11, 0]) = .error .TooShort ∧
    decode (.buf [0x11, 0]) ≠
      .ok { code := 0x11, name := some "sha1", length := 0, digest := [] } := by
  refine ⟨rfl, rfl, ?_⟩
  intro h
  rw [show decode (.buf [0x11, 0]) = .error .TooShort from rfl] at h
  exact Except.noConfusion h

/-- Claim C1 as amended: for every digest of 1 to 127 bytes and every valid
hash-function code (registered or an application code), decode(encode(digest,
code)) returns the record {code, name := the registry's code-to-name lookup
(none for an unregistered application code), length := the digest's byte
length, digest}. -/
theorem encode_decode_roundtrip (digest : List Nat) (c : Nat)
    (h1 : 1 ≤ digest.length) (h2 : digest.length ≤ 127) (h3 : validCode c = true) :
    encode digest (.code c) none = .ok (c :: digest.length :: digest) ∧
    decode (.buf (c :: digest.length :: digest)) =
      .ok { code := c, name := codes.lookup c, length := digest.length, digest := digest } := by
  have hc : coerceCode (.code c) = .ok c := by rw [coerceCode_code_eq, if_pos h3]
  have hlt : c < 256 := validCode_lt_256 h3
  constructor
  · rw [encode_ok_form digest (.code c) c hc h2, Nat.mod_eq_of_lt hlt,
      Nat.mod_eq_of_lt (by omega)]
  · have hv : validate (.buf (c :: digest.length :: digest)) = none := by
      rw [validate_buf_none_iff]
      refine ⟨by simp; omega, by simp; omega, ?_, by simp⟩
      simpa using h3
    simp [decode, hv]

/-- Witness for C1 as amended: the round trip at the 2-byte digest
[0xde, 0xad] under the registered code 0x11 ("sha1"). -/
theorem encode_decode_roundtrip_witness :
    encode [0xde, 0xad] (.code 0x11) none = .ok [0x11, 2, 0xde, 0xad] ∧
    decode (.buf [0x11, 2, 0xde, 0xad]) =
      .ok { code := 0x11, name := some "sha1", length := 2, digest := [0xde, 0xad] } :=
  encode_decode_roundtrip [0xde, 0xad] 0x11 (by decide) (by decide) (by decide)

/-- Counterexample to C7 as stated: an explicit length argument of 0 does not
equal the digest's byte length 1, yet `encode` succeeds instead of failing
with `LengthMismatch` — the source's `if (!length)` treats a zero length as
omitted. -/
theorem encode_zero_length_treated_as_omitted :
    encode [1] (.code 0x11) (some 0) = .ok [0x11, 1, 1] ∧ (0 : Nat) ≠ [1].length :=
  ⟨rfl, by decide⟩

/-- Claim C7 as amended: for every digest and every valid hash-function
designator, if `encode` is given an explicit NONZERO length that does not
equal the digest's actual byte length, it fails with `LengthMismatch` (an
explicit length of 0 is falsy and treated as omitted); in particular
encode(digest, 0x11, 5) fails whenever the digest's length is not 5. -/
theorem encode_nonzero_length_mismatch (digest : List Nat) (hashfn : HashFn) (l c : Nat)
    (hc : coerceCode hashfn = .ok c) (hl : l ≠ 0) (hne : digest.length ≠ l) :
    encode digest hashfn (some l) = .error .LengthMismatch := by
  have ht := coerceCode_ok_truthy hc
  simp only [encode, ht, Bool.not_true, Bool.false_eq_true, if_false, hc, effLength]
  rw [if_neg hl]
  rw [if_pos ⟨hl, hne⟩]

/-- Witness for C7 as amended: encode([1, 2, 3], 0x11, 5) fails with
`LengthMismatch` (digest length 3 ≠ 5). -/
theorem encode_nonzero_length_mismatch_witness :
    encode [1, 2, 3] (.code 0x11) (some 5) = .error .LengthMismatch :=
  encode_nonzero_length_mismatch [1, 2, 3] (.code 0x11) 5 0x11 rfl (by decide) (by decide)

/-- Counterexample to C8 as stated: with a provided length of 200 (> 127) and
a 1-byte digest, the resulting length exceeds 127 yet `encode` fails with
`LengthMismatch`, not `LengthTooLarge` — the mismatch check runs first. -/
theorem encode_oversize_preempted_by_mismatch :
    encode [1] (.code 0x11) (some 200) = .error .LengthMismatch ∧
    MHError.LengthMismatch ≠ MHError.LengthTooLarge ∧ 127 < 200 :=
  ⟨rfl, by decide, by decide⟩

/-- Claim C8 as amended: `encode` fails with `LengthTooLarge` whenever the
resulting length — the digest's byte length, with any provided length either
absent, zero (falsy, treated as absent) or equal to the digest's length, so
that no earlier check fails — exceeds 127; in particular encoding a 129-byte
digest with "sha1" fails with `LengthTooLarge`. -/
theorem encode_length_too_large (digest : List Nat) (hashfn : HashFn) (length : Option Nat)
    (c : Nat) (hc : coerceCode hashfn = .ok c)
    (hlen : length = none ∨ length = some 0 ∨ length = some digest.length)
    (hbig : 127 < digest.length) :
    encode digest hashfn length = .error .LengthTooLarge := by
  have ht := coerceCode_ok_truthy hc
  have he : effLength digest length = digest.length := by
    rcases hlen with rfl | rfl | rfl
    · rfl
    · simp [effLength]
    · simp [effLength]
  simp only [encode, ht, Bool.not_true, Bool.false_eq_true, if_false, hc, he]
  rw [if_neg (by simp), if_pos (by omega)]

/-- Witness for C8 as amended: encoding a 129-byte digest under "sha1" fails
with `LengthTooLarge`. -/
theorem encode_length_too_large_witness :
    encode (List.replicate 129 0) (.name "sha1") none = .error .LengthTooLarge :=
  encode_length_too_large (List.replicate 129 0) (.name "sha1") none 0x11 rfl (Or.inl rfl)
    (by simp)

/-- Claim C10: `encode` accepts a zero-length digest — for every application
code c in 1..15 it succeeds with the 2-byte output [c, 0] — yet `validate`
rejects every sequence shorter than 3 bytes as `TooShort`, so that very
output fails validation and `decode` rejects it: encode's successful outputs
are not all decodable. -/
theorem encode_empty_digest_not_decodable (c : Nat) (h1 : 1 ≤ c) (h2 : c ≤ 15) :
    encode [] (.code c) none = .ok [c, 0] ∧
    validate (.buf [c, 0]) = some .TooShort ∧
    decode (.buf [c, 0]) = .error .TooShort ∧
    (∀ b : List Nat, b.length < 3 → validate (.buf b) = some .TooShort) := by
  have h3 : validCode c = true := (validCode_iff c).mpr (Or.inl ⟨by omega, by omega⟩)
  have hc : coerceCode (.code c) = .ok c := by rw [coerceCode_code_eq, if_pos h3]
  refine ⟨?_, rfl, rfl, ?_⟩
  · rw [encode_ok_form [] (.code c) c hc (by simp), Nat.mod_eq_of_lt (by omega)]
    rfl
  · intro b hb
    simp [validate, if_pos hb]

/-- Witness for C10: the empty digest under application code 5. -/
theorem encode_empty_digest_not_decodable_witness :
    encode [] (.code 5) none = .ok [5, 0] ∧
    validate (.buf [5, 0]) = some .TooShort ∧
    decode (.buf [5, 0]) = .error .TooShort ∧
    (∀ b : List Nat, b.length < 3 → validate (.buf b) = some .TooShort) :=
  encode_empty_digest_not_decodable 5 (by decide) (by decide)

end Multihash
